import Mathlib

/-!
Verification development for the kai-coin-frontend repository.

The first part of the file is a shallow embedding of the repository's
"Security & Resilience Layer" (input sanitizer, sliding-window rate
limiter, resilient fetch wrapper, API façade) and of the wallet /
contract-binding layer (`src/contracts/config.js` and the hooks file).
Strings are modelled as Lean `String` / `List Char`, machine timestamps
as `Int` (milliseconds), and fallible operations as `Except`.
Behaviour of the two external-library functions the spec talks about
(`ethers.parseUnits` / `ethers.formatUnits`, `ethers.isAddress`) is
modelled from the spec, as marked on the individual definitions.
-/

/-! ## Constants of the security layer (App.jsx source) -/

/-- Source constant `API_BASE`. -/
def API_BASE : String := "http://127.0.0.1:3333/api/v1"

/-- Source constant `MAX_RETRIES`. -/
def MAX_RETRIES : Nat := 3

/-- Source constant `RETRY_DELAY` (milliseconds), used in the backoff product. -/
def RETRY_DELAY : Int := 1000

/-- Source constant `RATE_LIMIT_WINDOW` (milliseconds). -/
def RATE_LIMIT_WINDOW : Int := 60000

/-- Source constant `MAX_REQUESTS_PER_WINDOW`. -/
def MAX_REQUESTS_PER_WINDOW : Nat := 100

/-! ## Input sanitizer (`sanitizeInput`)

The source applies, in order: `.replace(/[<>]/g, '')`,
`.replace(/javascript:/gi, '')`, `.replace(/on\w+=/gi, '')`, `.trim()`,
`.slice(0, 1000)`.  Each global regex replacement scans left to right and
never rescans replaced output; the fuelled recursions below implement
exactly that scan (fuel is the input length, and every step consumes at
least one character, so the fuel never runs out). -/

/-- Character class `\w` of JavaScript regexes: ASCII letters, digits, `_`. -/
def isWordChar (c : Char) : Bool := c.isAlphanum || c = '_'

/-- Lower-cased pattern of the `/javascript:/gi` replacement. -/
def jsPat : List Char := "javascript:".toList

/-- One left-to-right pass removing case-insensitive occurrences of
`javascript:`; `fuel` bounds the recursion depth. -/
def stripJsGo : Nat → List Char → List Char
  | 0, l => l
  | _ + 1, [] => []
  | fuel + 1, c :: cs =>
    if ((c :: cs).take 11).map Char.toLower = jsPat then
      stripJsGo fuel ((c :: cs).drop 11)
    else
      c :: stripJsGo fuel cs

/-- Global replacement of `/javascript:/gi` by the empty string. -/
def stripJs (l : List Char) : List Char := stripJsGo l.length l

/-- Length of the match of `/on\w+=/i` at the head of `l`, or `0` when the
regex does not match there.  (`\w+` is greedy and `=` is not a word
character, so the regex matches at a position exactly when `on` is followed
by a nonempty word-character run whose first non-word successor is `=`.) -/
def onMatchLen (l : List Char) : Nat :=
  match l with
  | a :: b :: rest =>
    if a.toLower = 'o' && b.toLower = 'n' then
      match rest.dropWhile isWordChar with
      | '=' :: _ =>
        if (rest.takeWhile isWordChar).isEmpty then 0
        else 2 + (rest.takeWhile isWordChar).length + 1
      | _ => 0
    else 0
  | _ => 0

/-- One left-to-right pass removing matches of `/on\w+=/gi`. -/
def stripOnGo : Nat → List Char → List Char
  | 0, l => l
  | _ + 1, [] => []
  | fuel + 1, c :: cs =>
    if onMatchLen (c :: cs) ≠ 0 then
      stripOnGo fuel ((c :: cs).drop (onMatchLen (c :: cs)))
    else
      c :: stripOnGo fuel cs

/-- Global replacement of `/on\w+=/gi` by the empty string. -/
def stripOnAttr (l : List Char) : List Char := stripOnGo l.length l

/-- White-space class of JavaScript `String.prototype.trim`. -/
def isJsSpace (c : Char) : Bool :=
  c = ' ' || c = '\t' || c = '\n' || c = '\r' ||
  c = '\x0b' || c = '\x0c' || c = '\xa0'

/-- JavaScript `trim`: drop white space from both ends. -/
def trimChars (l : List Char) : List Char :=
  ((l.dropWhile isJsSpace).reverse.dropWhile isJsSpace).reverse

/-- Source function `sanitizeInput`, on its string branch (non-string
inputs are returned unchanged by the source and are not modelled). -/
def sanitizeInput (s : String) : String :=
  let l1 := s.toList.filter (fun c => !(c = '<' || c = '>'))
  let l2 := stripJs l1
  let l3 := stripOnAttr l2
  String.mk ((trimChars l3).take 1000)

/-! ## Rate limiter (`checkRateLimit`)

The mutable module-level array `requestLog` is modelled by explicit state
passing: a step takes the retained timestamp list and the current clock
value and returns the new retained list together with the admission flag
(`false` corresponds to the `Rate limit exceeded` throw, in which case the
source has already replaced `requestLog` by the filtered list and does not
push the new timestamp). -/

/-- One execution of the source function `checkRateLimit` at clock `now`. -/
def rateLimitStep (log : List Int) (now : Int) : List Int × Bool :=
  let recent := log.filter (fun t => decide (now - RATE_LIMIT_WINDOW < t))
  if MAX_REQUESTS_PER_WINDOW ≤ recent.length then (recent, false)
  else (recent ++ [now], true)

/-- Final retained log after running a sequence of checks. -/
def rlLog : List Int → List Int → List Int
  | log, [] => log
  | log, t :: ts => rlLog (rateLimitStep log t).1 ts

/-- Timestamps of the admitted checks of a sequence, in order. -/
def rlAdmitted : List Int → List Int → List Int
  | _, [] => []
  | log, t :: ts =>
    (if (rateLimitStep log t).2 then [t] else []) ++
      rlAdmitted (rateLimitStep log t).1 ts

/-- Boolean check that a clock trace is non-decreasing. -/
def timesMono : List Int → Bool
  | [] => true
  | [_] => true
  | a :: b :: r => decide (a ≤ b) && timesMono (b :: r)

/-! ## Resilient fetch wrapper (`secureFetch`)

The wrapper is modelled over an abstract stream of attempt outcomes
(`outcomes k` is what the `k`-th attempt of this call chain observes):
either the rate limiter throws before the `try` block, or the fetch
attempt fails (timeout, network error, or the interpolated HTTP-status throw on a
non-ok response, all carrying their message), or it succeeds with a parsed
body.  The result is paired with the list of back-off delays waited, each
`RETRY_DELAY * (MAX_RETRIES - retries + 1)` exactly as in the source. -/

/-- Outcome of one attempt inside `secureFetch`. -/
inductive FetchOutcome where
  | rateLimited
  | failure (msg : String)
  | success (body : String)
deriving DecidableEq

/-- Result of a `secureFetch` call chain. -/
inductive FetchResult where
  | ok (body : String)
  | err (msg : String)
deriving DecidableEq

/-- Message of the rate limiter's throw. -/
def rateLimitMsg : String := "Rate limit exceeded. Please wait."

/-- Check that `p` is a prefix of `l`. -/
def isPre : List Char → List Char → Bool
  | [], _ => true
  | _ :: _, [] => false
  | p :: ps, c :: cs => p == c && isPre ps cs

/-- JavaScript `String.prototype.includes`. -/
def containsSub (s pat : String) : Bool :=
  go s.toList pat.toList
where
  go : List Char → List Char → Bool
    | [], p => p.isEmpty
    | c :: cs, p => isPre p (c :: cs) || go cs p

/-- Source function `secureFetch`, with the attempt index `k` and the
remaining retry budget made explicit.  The source guard
`retries > 0 && !error.message.includes('Rate limit')` appears as the
split on the budget plus the message test; the rate-limiter throw happens
before the `try`, so it propagates with no delay and no retry. -/
def secureFetchAux (outcomes : Nat → FetchOutcome) : Nat → Nat → FetchResult × List Int
  | k, 0 =>
    match outcomes k with
    | .rateLimited => (.err rateLimitMsg, [])
    | .success b => (.ok b, [])
    | .failure msg => (.err msg, [])
  | k, r + 1 =>
    match outcomes k with
    | .rateLimited => (.err rateLimitMsg, [])
    | .success b => (.ok b, [])
    | .failure msg =>
      if containsSub msg "Rate limit" then (.err msg, [])
      else
        ((secureFetchAux outcomes (k + 1) r).1,
          RETRY_DELAY * ((MAX_RETRIES : Int) - (r + 1 : Nat) + 1) ::
            (secureFetchAux outcomes (k + 1) r).2)

/-- A top-level `secureFetch` call with the default budget. -/
def secureFetch (outcomes : Nat → FetchOutcome) : FetchResult × List Int :=
  secureFetchAux outcomes 0 MAX_RETRIES

/-! ## API façade (`api` object of App.jsx) -/

/-- Body of the alert-creation request (`riskScore` is the clamped
integer; JavaScript numbers at integral values are modelled as `Int`). -/
structure AlertBody where
  disasterType : String
  region : String
  riskScore : Int
deriving DecidableEq

/-- Raw input of `api.createAlert`. -/
structure AlertInput where
  disasterType : String
  region : String
  riskScore : Int

/-- Source operation `api.createAlert`: the sanitized and clamped body that
is serialized and handed to `secureFetch` (with `parseInt` at an integral
numeric input returning that integer). -/
def createAlertBody (data : AlertInput) : AlertBody :=
  { disasterType := sanitizeInput data.disasterType
    region := sanitizeInput data.region
    riskScore := min 100 (max 0 data.riskScore) }

/-- Modelled from the spec: `ethers.isAddress` is a third-party library
function not in this repository; the spec calls it the check that an input
string is a syntactically valid address, modelled here as `0x` followed by
forty hexadecimal digits (the EIP-55 mixed-case checksum refinement would
need a keccak hash and is out of scope). -/
def isAddress (s : String) : Bool :=
  let l := s.toList
  l.length = 42 && isPre ['0', 'x'] l &&
    (l.drop 2).all (fun c => c.isDigit || ('a' ≤ c && c ≤ 'f') || ('A' ≤ c && c ≤ 'F'))

/-- Source operation `api.getBalance`: an invalid address throws before
any other action; on a valid address the operation proceeds to
`secureFetch` with this URL (the `.ok` payload is exactly the URL handed
to the fetch wrapper, so an `.error` result means neither the network nor
the rate limiter was touched). -/
def api_getBalance (address : String) : Except String String :=
  if !isAddress address then .error "Invalid address"
  else .ok (API_BASE ++ "/token/balance/" ++ address)

/-! ## Static configuration (`config.js`) -/

/-- Native-currency descriptor of a network configuration entry. -/
structure Currency where
  name : String
  symbol : String
  decimals : Nat
deriving DecidableEq

/-- One entry of the source table `NETWORKS`. -/
structure Network where
  chainId : Nat
  name : String
  rpcUrl : String
  explorer : String
  currency : Currency
deriving DecidableEq

/-- Source table `NETWORKS` of `config.js`. -/
def NETWORKS : String → Option Network
  | "polygon" => some
      { chainId := 137, name := "Polygon Mainnet",
        rpcUrl := "https://polygon-rpc.com",
        explorer := "https://polygonscan.com",
        currency := { name := "MATIC", symbol := "MATIC", decimals := 18 } }
  | "amoy" => some
      { chainId := 80002, name := "Polygon Amoy Testnet",
        rpcUrl := "https://rpc-amoy.polygon.technology",
        explorer := "https://www.oklink.com/amoy",
        currency := { name := "MATIC", symbol := "MATIC", decimals := 18 } }
  | "hardhat" => some
      { chainId := 31337, name := "Hardhat Local",
        rpcUrl := "http://127.0.0.1:8545",
        explorer := "",
        currency := { name := "ETH", symbol := "ETH", decimals := 18 } }
  | _ => none

/-- Source constant `DEFAULT_NETWORK`. -/
def DEFAULT_NETWORK : String := "amoy"

/-- Names carried by every per-network block of `CONTRACT_ADDRESSES`. -/
def contractNames : List String :=
  ["KAIToken", "KAIRevenue", "KAIGovernance", "ClimateAlertStaking",
   "KAI_Oracle", "KaiHealth", "KAI_Agriculture", "KAI_LawEvidence",
   "KaiDisasterResponse", "KAIVesting"]

/-- Source table `CONTRACT_ADDRESSES`: every address of every network block
is the empty string in the shipped configuration. -/
def CONTRACT_ADDRESSES (networkId : String) : String → Option String :=
  fun name =>
    if networkId = "hardhat" || networkId = "amoy" || networkId = "polygon" then
      if name ∈ contractNames then some "" else none
    else none

/-- Source table `ABIS` of `config.js`: logical contract name to interface
signature list (`none` models a JavaScript `undefined` lookup). -/
def ABIS : String → Option (List String)
  | "KAIToken" => some [
      "function name() view returns (string)",
      "function symbol() view returns (string)",
      "function decimals() view returns (uint8)",
      "function totalSupply() view returns (uint256)",
      "function balanceOf(address account) view returns (uint256)",
      "function transfer(address to, uint256 amount) returns (bool)",
      "function approve(address spender, uint256 amount) returns (bool)",
      "function allowance(address owner, address spender) view returns (uint256)",
      "function transferFrom(address from, address to, uint256 amount) returns (bool)",
      "function totalBurned() view returns (uint256)",
      "function burnedByAddress(address account) view returns (uint256)",
      "function getPillarBurnRate(uint8 pillarId) view returns (uint256)",
      "function directBurn(uint256 amount, uint8 pillarId, string reason)",
      "event Transfer(address indexed from, address indexed to, uint256 value)",
      "event Approval(address indexed owner, address indexed spender, uint256 value)",
      "event PillarBurn(address indexed burner, uint8 indexed pillarId, uint256 amount, string reason)"]
  | "KAIRevenue" => some [
      "function kaiToken() view returns (address)",
      "function treasury() view returns (address)",
      "function totalRevenue() view returns (uint256)",
      "function monthlyRevenue() view returns (uint256)",
      "function ALERT_BASIC() view returns (uint256)",
      "function ALERT_URGENT() view returns (uint256)",
      "function SUBSCRIPTION_BASIC() view returns (uint256)",
      "function SUBSCRIPTION_PREMIUM() view returns (uint256)",
      "function buyAlert(uint8 alertType) returns (uint256)",
      "function subscribe(uint8 plan)",
      "function hasActiveSubscription(address user) view returns (bool)",
      "function getUserStats(address user) view returns (uint256 alertCount, uint256 totalSpent, bool isSubscribed)",
      "event RevenueCollected(uint256 amount, uint256 totalRevenue)",
      "event SubscriptionCreated(address indexed user, uint8 plan, uint256 expiresAt)"]
  | "KAIGovernance" => some [
      "function kaiToken() view returns (address)",
      "function proposalCount() view returns (uint256)",
      "function quorumThreshold() view returns (uint256)",
      "function votingPeriod() view returns (uint256)",
      "function propose(string title, string description, uint8 proposalType) returns (uint256)",
      "function vote(uint256 proposalId, bool support)",
      "function executeProposal(uint256 proposalId)",
      "function getProposal(uint256 proposalId) view returns (tuple)",
      "function hasVoted(uint256 proposalId, address voter) view returns (bool)",
      "event ProposalCreated(uint256 indexed proposalId, address proposer, string title)",
      "event VoteCast(uint256 indexed proposalId, address indexed voter, bool support, uint256 weight)",
      "event ProposalExecuted(uint256 indexed proposalId)"]
  | "ClimateAlertStaking" => some [
      "function kaiToken() view returns (address)",
      "function minimumStake() view returns (uint256)",
      "function stakingDuration() view returns (uint256)",
      "function totalStaked() view returns (uint256)",
      "function stake(uint256 amount)",
      "function unstake()",
      "function claimRewards()",
      "function getStakeInfo(address staker) view returns (uint256 amount, uint256 timestamp, uint256 rewards)",
      "function calculateRewards(address staker) view returns (uint256)",
      "event Staked(address indexed user, uint256 amount)",
      "event Unstaked(address indexed user, uint256 amount)",
      "event RewardsClaimed(address indexed user, uint256 amount)"]
  | "KAI_Oracle" => some [
      "function getRiskLevel(string region, uint8 riskType) view returns (uint8)",
      "function getLatestData(string region) view returns (tuple)",
      "function isHighRisk(string region) view returns (bool)",
      "event DataUpdated(string indexed region, uint8 riskType, uint8 level)",
      "event AlertTriggered(string indexed region, uint8 severity)"]
  | "KaiHealth" => some [
      "function inspectionFee() view returns (uint256)",
      "function getInspection(uint256 inspectionId) view returns (tuple)",
      "function requestInspection(string facilityName, string location) payable returns (uint256)",
      "function certifyFacility(uint256 inspectionId, string certificateHash)",
      "event InspectionRequested(uint256 indexed id, address requester, string facilityName)",
      "event InspectionCompleted(uint256 indexed id, bool passed)",
      "event FacilityCertified(uint256 indexed id, string certificateHash)"]
  | "KAI_Agriculture" => some [
      "function getPolicyDetails(uint256 policyId) view returns (tuple)",
      "function createPolicy(string cropType, uint256 coverage, string region) payable returns (uint256)",
      "function claimPolicy(uint256 policyId, string evidenceHash)",
      "event PolicyCreated(uint256 indexed policyId, address farmer, string cropType, uint256 coverage)",
      "event ClaimFiled(uint256 indexed policyId, string evidenceHash)",
      "event ClaimPaid(uint256 indexed policyId, uint256 amount)"]
  | "KAI_LawEvidence" => some [
      "function getEvidence(bytes32 evidenceHash) view returns (tuple)",
      "function submitEvidence(bytes32 evidenceHash, string description) returns (uint256)",
      "function verifyEvidence(bytes32 evidenceHash) view returns (bool exists, uint256 timestamp, address submitter)",
      "event EvidenceSubmitted(bytes32 indexed hash, address indexed submitter, uint256 timestamp)",
      "event EvidenceVerified(bytes32 indexed hash)"]
  | "KaiDisasterResponse" => some [
      "function emergencyFund() view returns (uint256)",
      "function getIncident(uint256 incidentId) view returns (tuple)",
      "function reportIncident(uint8 disasterType, string location, uint8 severity, string description) returns (uint256)",
      "function requestAid(uint256 incidentId, uint256 amount, string reason)",
      "event IncidentReported(uint256 indexed id, uint8 disasterType, string location, uint8 severity)",
      "event AidRequested(uint256 indexed incidentId, address requester, uint256 amount)",
      "event AidDisbursed(uint256 indexed incidentId, address recipient, uint256 amount)"]
  | "KAIVesting" => some [
      "function token() view returns (address)",
      "function getVestingSchedule(address beneficiary) view returns (tuple)",
      "function releasable(address beneficiary) view returns (uint256)",
      "function release(address beneficiary)",
      "event VestingScheduleCreated(address indexed beneficiary, uint256 amount, uint256 cliff, uint256 duration)",
      "event TokensReleased(address indexed beneficiary, uint256 amount)"]
  | _ => none

/-- Configuration record returned by the source function
`getContractConfig` (the `network` field is not consulted by
`getContract` and is omitted). -/
structure ContractConfig where
  addresses : String → Option String
  abis : String → Option (List String)

/-- Source function `getContractConfig` (its JavaScript default argument
is `DEFAULT_NETWORK`). -/
def getContractConfig (networkId : String) : ContractConfig :=
  { addresses := CONTRACT_ADDRESSES networkId, abis := ABIS }

/-- JavaScript falsiness of the `address` lookup result: `undefined`
(absent key) or the empty string. -/
def addrFalsy : Option String → Bool
  | none => true
  | some s => s.isEmpty

/-- JavaScript falsiness of the `abi` lookup result: only `undefined`
(an array, even an empty one, is truthy). -/
def abiFalsy : Option (List String) → Bool
  | none => true
  | some _ => false

/-- An instantiated contract binding (`new ethers.Contract(...)`). -/
structure ContractInstance where
  address : String
  abi : List String
  withSigner : Bool
deriving DecidableEq

/-- Body of the source function `getContract`, over an explicit
configuration and provider availability: the `!address || !abi` check and
its throw come before the provider lookup and before any network
interaction. -/
def getContractWith (config : ContractConfig) (hasProvider : Bool)
    (contractName : String) (withSigner : Bool) : Except String ContractInstance :=
  let address := config.addresses contractName
  let abi := config.abis contractName
  if addrFalsy address || abiFalsy abi then
    .error ("Contract " ++ contractName ++ " not configured")
  else if !hasProvider then
    .error "No wallet provider found"
  else
    .ok { address := address.getD "", abi := abi.getD [], withSigner := withSigner }

/-- Source function `getContract`: the body applied to
`getContractConfig()` at the default network. -/
def getContract (hasProvider : Bool) (contractName : String)
    (withSigner : Bool) : Except String ContractInstance :=
  getContractWith (getContractConfig DEFAULT_NETWORK) hasProvider contractName withSigner

/-! ## Wallet hook (`useWallet.switchNetwork`) -/

/-- Error object thrown by a wallet-provider request. -/
structure ProviderErr where
  code : Int
  message : String
deriving DecidableEq

/-- A request issued to the injected wallet provider by `switchNetwork`. -/
inductive WalletRequest where
  | switchChain (chainIdHex : String)
  | addChain (chainIdHex : String) (chainName : String) (rpcUrls : List String)
      (nativeCurrency : Currency) (blockExplorerUrls : List String)
deriving DecidableEq

/-- Connection state held by the `useWallet` hook. -/
structure WalletState where
  account : Option String
  chainId : Option Nat
  error : Option String
deriving DecidableEq

/-- JavaScript `chainId.toString(16)` (lower-case hexadecimal digits). -/
def natToHex (n : Nat) : String := String.mk (Nat.toDigits 16 n)

/-- Source function `useWallet.switchNetwork`, with the provider's two
possible request outcomes passed explicitly.  The returned triple is the
updated hook state, the boolean return value, and the list of provider
requests issued in order. -/
def switchNetwork (st : WalletState) (networkId : String)
    (switchRes : Except ProviderErr Unit) (addRes : Except ProviderErr Unit) :
    WalletState × Bool × List WalletRequest :=
  match NETWORKS networkId with
  | none => ({ st with error := some "Unknown network" }, false, [])
  | some network =>
    let chainHex := "0x" ++ natToHex network.chainId
    match switchRes with
    | .ok _ => (st, true, [.switchChain chainHex])
    | .error switchError =>
      if switchError.code = 4902 then
        let addReq : WalletRequest :=
          .addChain chainHex network.name [network.rpcUrl] network.currency
            (if network.explorer.isEmpty then [] else [network.explorer])
        match addRes with
        | .ok _ => (st, true, [.switchChain chainHex, addReq])
        | .error addError =>
          ({ st with error := some addError.message }, false,
            [.switchChain chainHex, addReq])
      else
        ({ st with error := some switchError.message }, false, [.switchChain chainHex])

/-! ## Token amount conversion

`ethers.parseUnits` and `ethers.formatUnits` are third-party library
functions, not code of this repository; the definitions below are
modelled from the spec: a decimal string converts to the integer scaled
by `10^decimals` with no rounding, and a fixed-point integer converts
back to the decimal string with the scaled fraction, trailing zeros
trimmed and at least one fractional digit kept (none when `decimals`
is zero).  Digit rendering and parsing are given by explicit fuelled
recursions so that every definition evaluates. -/

/-- Numeric value of a decimal digit character. -/
def charDigit (c : Char) : Option Nat :=
  if '0' ≤ c && c ≤ '9' then some (c.toNat - '0'.toNat) else none

/-- Left-to-right accumulation of a digit string's value; `none` on any
non-digit character. -/
def digitsValFrom (acc : Nat) : List Char → Option Nat
  | [] => some acc
  | c :: cs =>
    match charDigit c with
    | some d => digitsValFrom (acc * 10 + d) cs
    | none => none

/-- Value of a decimal digit string. -/
def digitsVal (l : List Char) : Option Nat := digitsValFrom 0 l

/-- Decimal digit expansion of a natural number, most significant digit
first; `fuel` bounds the recursion depth (`n < fuel` suffices). -/
def decDigitsGo : Nat → Nat → List Char
  | 0, _ => []
  | fuel + 1, n =>
    if n < 10 then [Nat.digitChar n]
    else decDigitsGo fuel (n / 10) ++ [Nat.digitChar (n % 10)]

/-- Decimal digit expansion of a natural number. -/
def decDigits (n : Nat) : List Char := decDigitsGo (n + 1) n

/-- Split of a character list at every occurrence of `sep` (the shape of
`String.prototype.split` on a single-character separator). -/
def splitOnChar (sep : Char) : List Char → List (List Char)
  | [] => [[]]
  | c :: cs =>
    if c = sep then [] :: splitOnChar sep cs
    else
      match splitOnChar sep cs with
      | [] => [[c]]
      | h :: t => (c :: h) :: t

/-- Drop the trailing `'0'` characters of a digit string. -/
def dropTrailingZeros (l : List Char) : List Char :=
  (l.reverse.dropWhile (fun c => c = '0')).reverse

/-- Modelled from the spec: `ethers.parseUnits s decimals`, the exact
conversion of a non-negative decimal string to its fixed-point integer;
`none` on a malformed string or more fractional digits than `decimals`. -/
def parseUnits (s : String) (decimals : Nat) : Option Nat :=
  match splitOnChar '.' s.toList with
  | [w] =>
    if w.isEmpty then none
    else (digitsVal w).map (fun wv => wv * 10 ^ decimals)
  | [w, f] =>
    if w.isEmpty || f.isEmpty || decimals < f.length then none
    else
      (digitsVal w).bind fun wv =>
        (digitsVal f).map fun fv =>
          wv * 10 ^ decimals + fv * 10 ^ (decimals - f.length)
  | _ => none

/-- Modelled from the spec: `ethers.formatUnits m decimals`, rendering a
fixed-point integer as a decimal string: whole part, then the
`decimals`-digit zero-padded fraction with trailing zeros trimmed and at
least one digit kept; a zero `decimals` renders the plain integer. -/
def formatUnits (m : Nat) (decimals : Nat) : String :=
  if decimals = 0 then String.mk (decDigits m)
  else
    let whole := m / 10 ^ decimals
    let frac := m % 10 ^ decimals
    let fracRaw := decDigits frac
    let padded := List.replicate (decimals - fracRaw.length) '0' ++ fracRaw
    let trimmed := dropTrailingZeros padded
    String.mk (decDigits whole ++ '.' :: (if trimmed.isEmpty then ['0'] else trimmed))

/-- Exact rational value denoted by a decimal string (the reading the
spec's round-trip property quantifies over); `none` on a malformed
string. -/
def decVal (s : String) : Option ℚ :=
  match splitOnChar '.' s.toList with
  | [w] =>
    if w.isEmpty then none
    else (digitsVal w).map (fun wv => (wv : ℚ))
  | [w, f] =>
    if w.isEmpty || f.isEmpty then none
    else
      (digitsVal w).bind fun wv =>
        (digitsVal f).map fun fv => (wv : ℚ) + (fv : ℚ) / 10 ^ f.length
  | _ => none

/-! ## Token hook (`useKAIToken.getBalance`) -/

/-- Source function `useKAIToken.getBalance`, with the three awaited
steps (`getContract('KAIToken')`, `contract.balanceOf(address)`,
`contract.decimals()`) passed as explicit outcomes.  The result pairs the
returned string with the hook's error slot: any caught failure yields the
sentinel `"0"` and records the message; success yields
`ethers.formatUnits balance decimals` and a clear error slot. -/
def useKAIToken_getBalance (contractRes : Except String Unit)
    (balanceRes : Except String Nat) (decimalsRes : Except String Nat) :
    String × Option String :=
  match contractRes with
  | .error e => ("0", some e)
  | .ok _ =>
    match balanceRes with
    | .error e => ("0", some e)
    | .ok balance =>
      match decimalsRes with
      | .error e => ("0", some e)
      | .ok decimals => (formatUnits balance decimals, none)

/-- Clock value of the most recent check of a trace (last element;
`0` for the empty trace). -/
def lastClock (ts : List Int) : Int := ts.foldl (fun _ t => t) 0

/-! ## Theorems -/

/-- C1 (counterexample): the claim is false on the code.  The sanitizer
removes the `<` and `>` characters but keeps the tag names, so the body
submitted for `{disasterType: "<script>flood</script>", region: "  Lagos  ",
riskScore: 150}` does not have `disasterType = "flood"`. -/
theorem createAlert_claim_counterexample :
    createAlertBody ⟨"<script>flood</script>", "  Lagos  ", 150⟩ ≠
      ⟨"flood", "Lagos", 100⟩ := by decide

/-- C1 (amended): for the input `{disasterType: "<script>flood</script>",
region: "  Lagos  ", riskScore: 150}` the façade submits exactly
`{disasterType: "scriptflood/script", region: "Lagos", riskScore: 100}`:
angle brackets are removed (tag names kept), the region is trimmed, and
the risk score is clamped to 100. -/
theorem createAlert_submits_bracket_stripped_body :
    createAlertBody ⟨"<script>flood</script>", "  Lagos  ", 150⟩ =
      ⟨"scriptflood/script", "Lagos", 100⟩ := by decide

/-- C5: whenever the rate limiter rejects an attempt of the fetch
wrapper, the rejection propagates to the caller at once — the result is
the rate-limit error, no delay is waited and no retry is performed — no
matter how much retry budget remains. -/
theorem secureFetch_rate_limited_propagates_immediately
    (outcomes : Nat → FetchOutcome) (k retries : Nat)
    (h : outcomes k = .rateLimited) :
    secureFetchAux outcomes k retries = (.err rateLimitMsg, []) := by
  cases retries <;> simp [secureFetchAux, h]

/-- Witness for C5 at a concrete rate-limited attempt stream. -/
theorem secureFetch_rate_limited_propagates_immediately_witness :
    (fun _ : Nat => FetchOutcome.rateLimited) 0 = FetchOutcome.rateLimited ∧
      secureFetchAux (fun _ => FetchOutcome.rateLimited) 0 MAX_RETRIES =
        (.err rateLimitMsg, []) :=
  ⟨rfl, secureFetch_rate_limited_propagates_immediately _ 0 MAX_RETRIES rfl⟩

/-- C7: `api.getBalance` fails with the invalid-address error on every
string the (spec-modelled) syntactic address check rejects — producing no
fetch URL, so neither the network nor the rate limiter is touched — and
on every accepted string it proceeds to the fetch wrapper with the
balance URL. -/
theorem api_getBalance_rejects_invalid_address (a₁ a₂ : String)
    (h₁ : isAddress a₁ = false) (h₂ : isAddress a₂ = true) :
    api_getBalance a₁ = .error "Invalid address" ∧
      api_getBalance a₂ = .ok (API_BASE ++ "/token/balance/" ++ a₂) := by
  constructor
  · simp [api_getBalance, h₁]
  · simp [api_getBalance, h₂]

/-- Witness for C7 at `"not-an-address"` and a well-formed address. -/
theorem api_getBalance_rejects_invalid_address_witness :
    api_getBalance "not-an-address" = .error "Invalid address" ∧
      api_getBalance "0x0000000000000000000000000000000000000000" =
        .ok (API_BASE ++ "/token/balance/" ++
          "0x0000000000000000000000000000000000000000") :=
  api_getBalance_rejects_invalid_address _ _ (by decide) (by decide)

/-- C10: the token hook's balance read returns the string `"0"` — not
`null` — whenever any of its three awaited steps fails, recording the
failure message in the error slot; and a genuinely successful lookup can
also return `"0"` (zero balance under a zero decimal count) with a clear
error slot, so the sentinel is not distinguishable from a genuine zero by
the return value alone. -/
theorem hook_getBalance_returns_zero_sentinel (e : String)
    (b : Except String Nat) (d : Except String Nat) (bal : Nat) :
    useKAIToken_getBalance (.error e) b d = ("0", some e) ∧
      useKAIToken_getBalance (.ok ()) (.error e) d = ("0", some e) ∧
      useKAIToken_getBalance (.ok ()) (.ok bal) (.error e) = ("0", some e) ∧
      useKAIToken_getBalance (.ok ()) (.ok 0) (.ok 0) = ("0", none) :=
  ⟨rfl, rfl, rfl, rfl⟩

/-- C6: contract instantiation fails with the `not configured` error as
soon as the configured address is missing/empty or the interface is
missing — for any provider availability, so the check precedes the
provider lookup — and succeeds when both halves are present and a
provider exists; with the shipped address table (all addresses empty)
every logical name fails this way. -/
theorem getContract_configuration_check
    (config : ContractConfig) (hasProvider : Bool) (name : String) (ws : Bool)
    (config2 : ContractConfig) (name2 : String) (ws2 : Bool)
    (nm : String) (hp3 ws3 : Bool)
    (hbad : (addrFalsy (config.addresses name) || abiFalsy (config.abis name)) = true)
    (hgood : (addrFalsy (config2.addresses name2) || abiFalsy (config2.abis name2)) = false) :
    getContractWith config hasProvider name ws =
        .error ("Contract " ++ name ++ " not configured") ∧
      getContractWith config2 true name2 ws2 =
        .ok { address := (config2.addresses name2).getD "",
              abi := (config2.abis name2).getD [], withSigner := ws2 } ∧
      getContract hp3 nm ws3 = .error ("Contract " ++ nm ++ " not configured") := by
  refine ⟨?_, ?_, ?_⟩
  · simp [getContractWith, hbad]
  · simp [getContractWith, hgood]
  · have haddr : addrFalsy (CONTRACT_ADDRESSES DEFAULT_NETWORK nm) = true := by
      have hemp : ("" : String).isEmpty = true := rfl
      by_cases hmem : nm ∈ contractNames <;>
        simp [CONTRACT_ADDRESSES, DEFAULT_NETWORK, hmem, addrFalsy, hemp]
    simp [getContract, getContractWith, getContractConfig, haddr]

/-- Witness for C6: the shipped `KAIToken` entry (empty address) fails,
a fully configured entry with a provider succeeds, and `getContract` on
the shipped table fails for `KAIToken`. -/
theorem getContract_configuration_check_witness :
    (addrFalsy ((getContractConfig DEFAULT_NETWORK).addresses "KAIToken") ||
        abiFalsy ((getContractConfig DEFAULT_NETWORK).abis "KAIToken")) = true ∧
      (addrFalsy ((ContractConfig.mk (fun _ => some "0xabc") (fun _ => some ["sig"])).addresses "X") ||
        abiFalsy ((ContractConfig.mk (fun _ => some "0xabc") (fun _ => some ["sig"])).abis "X")) = false ∧
      getContractWith (getContractConfig DEFAULT_NETWORK) false "KAIToken" false =
        .error ("Contract " ++ "KAIToken" ++ " not configured") ∧
      getContractWith (ContractConfig.mk (fun _ => some "0xabc") (fun _ => some ["sig"])) true "X" true =
        .ok { address := ((fun _ => some "0xabc") "X").getD "",
              abi := ((fun _ => some ["sig"]) "X").getD [], withSigner := true } ∧
      getContract true "KAIToken" false =
        .error ("Contract " ++ "KAIToken" ++ " not configured") := by
  refine ⟨by decide, by decide, ?_⟩
  have h := getContract_configuration_check (getContractConfig DEFAULT_NETWORK) false
    "KAIToken" false (ContractConfig.mk (fun _ => some "0xabc") (fun _ => some ["sig"]))
    "X" true "KAIToken" true false (by decide) (by decide)
  exact ⟨h.1, h.2.1, h.2.2⟩

/-- C8: a switch request for a statically known network that the provider
rejects with the unrecognized-chain code 4902 triggers an add-network
request built from that network's static configuration (hex chain id,
name, RPC URL, native currency, explorer list); when the add request also
fails, the error slot records the add failure, the operation returns
`false`, and the connection state (account, chainId) is unchanged. -/
theorem switchNetwork_add_failure_leaves_state
    (st : WalletState) (networkId : String) (network : Network)
    (e ae : ProviderErr)
    (hnet : NETWORKS networkId = some network) (hcode : e.code = 4902) :
    switchNetwork st networkId (.error e) (.error ae) =
        ({ st with error := some ae.message }, false,
          [.switchChain ("0x" ++ natToHex network.chainId),
           .addChain ("0x" ++ natToHex network.chainId) network.name
             [network.rpcUrl] network.currency
             (if network.explorer.isEmpty then [] else [network.explorer])]) ∧
      (switchNetwork st networkId (.error e) (.error ae)).1.account = st.account ∧
      (switchNetwork st networkId (.error e) (.error ae)).1.chainId = st.chainId := by
  have hfull : switchNetwork st networkId (.error e) (.error ae) =
      ({ st with error := some ae.message }, false,
        [.switchChain ("0x" ++ natToHex network.chainId),
         .addChain ("0x" ++ natToHex network.chainId) network.name
           [network.rpcUrl] network.currency
           (if network.explorer.isEmpty then [] else [network.explorer])]) := by
    simp [switchNetwork, hnet, hcode]
  exact ⟨hfull, by rw [hfull], by rw [hfull]⟩

/-- Witness for C8 at the `amoy` network with a 4902 switch failure and a
failing add request from a connected state. -/
theorem switchNetwork_add_failure_leaves_state_witness :
    NETWORKS "amoy" = some
        { chainId := 80002, name := "Polygon Amoy Testnet",
          rpcUrl := "https://rpc-amoy.polygon.technology",
          explorer := "https://www.oklink.com/amoy",
          currency := { name := "MATIC", symbol := "MATIC", decimals := 18 } } ∧
      (ProviderErr.mk 4902 "unrecognized chain").code = 4902 ∧
      switchNetwork ⟨some "0xfeed", some 137, none⟩ "amoy"
          (.error ⟨4902, "unrecognized chain"⟩) (.error ⟨-32602, "add rejected"⟩) =
        (⟨some "0xfeed", some 137, some "add rejected"⟩, false,
          [.switchChain ("0x" ++ natToHex 80002),
           .addChain ("0x" ++ natToHex 80002) "Polygon Amoy Testnet"
             ["https://rpc-amoy.polygon.technology"]
             { name := "MATIC", symbol := "MATIC", decimals := 18 }
             (if ("https://www.oklink.com/amoy" : String).isEmpty then []
              else ["https://www.oklink.com/amoy"])]) := by
  refine ⟨by decide, rfl, ?_⟩
  exact (switchNetwork_add_failure_leaves_state ⟨some "0xfeed", some 137, none⟩ "amoy"
    { chainId := 80002, name := "Polygon Amoy Testnet",
      rpcUrl := "https://rpc-amoy.polygon.technology",
      explorer := "https://www.oklink.com/amoy",
      currency := { name := "MATIC", symbol := "MATIC", decimals := 18 } }
    ⟨4902, "unrecognized chain"⟩ ⟨-32602, "add rejected"⟩ (by decide) rfl).1

/-- Number of retries of a fetch call chain against a stream with `f`
initial failures: the minimum of the remaining failures and the budget. -/
theorem secureFetch_fail_stream_count (f : Nat) (msg body : String)
    (hmsg : containsSub msg "Rate limit" = false) :
    ∀ r k, (secureFetchAux (fun j => if j < f then .failure msg else .success body) k r).2.length
      = min (f - k) r := by
  intro r
  induction r with
  | zero => intro k; by_cases hk : k < f <;> simp [secureFetchAux, hk]
  | succ r ih =>
    intro k
    by_cases hk : k < f
    · simp [secureFetchAux, hk, hmsg, ih (k + 1)]
      omega
    · simp [secureFetchAux, hk]
      omega

/-- Back-off delays of a fetch call chain against a stream with `f`
initial failures: the `i`-th delay is
`RETRY_DELAY * (MAX_RETRIES - initial budget + i + 1)`. -/
theorem secureFetch_fail_stream_delays (f : Nat) (msg body : String)
    (hmsg : containsSub msg "Rate limit" = false) :
    ∀ r k, (secureFetchAux (fun j => if j < f then .failure msg else .success body) k r).2
      = (List.range (min (f - k) r)).map
          (fun i : Nat => RETRY_DELAY * ((MAX_RETRIES : Int) - r + i + 1)) := by
  intro r
  induction r with
  | zero => intro k; by_cases hk : k < f <;> simp [secureFetchAux, hk]
  | succ r ih =>
    intro k
    by_cases hk : k < f
    · have hmin : min (f - k) (r + 1) = min (f - (k + 1)) r + 1 := by omega
      simp only [secureFetchAux, hk, if_true, hmsg, Bool.false_eq_true, if_false, ih (k + 1),
        hmin, List.range_succ_eq_map, List.map_cons, List.map_map]
      congr 1
      · push_cast; ring
      · apply List.map_congr_left
        intro i _
        simp only [Function.comp_apply, Nat.succ_eq_add_one]
        push_cast; ring
    · simp [secureFetchAux, hk]
      omega

/-- Final result of a fetch call chain against a stream with `f` initial
failures: success exactly when the budget covers the failures. -/
theorem secureFetch_fail_stream_result (f : Nat) (msg body : String)
    (hmsg : containsSub msg "Rate limit" = false) :
    ∀ r k, (secureFetchAux (fun j => if j < f then .failure msg else .success body) k r).1
      = (if f - k ≤ r then .ok body else .err msg) := by
  intro r
  induction r with
  | zero =>
    intro k
    by_cases hk : k < f
    · have : ¬ f - k ≤ 0 := by omega
      simp [secureFetchAux, hk, this]
    · have : f - k ≤ 0 := by omega
      simp [secureFetchAux, hk, this]
  | succ r ih =>
    intro k
    by_cases hk : k < f
    · have hiff : (f - (k + 1) ≤ r) = (f - k ≤ r + 1) := by
        apply propext; omega
      simp [secureFetchAux, hk, hmsg, ih (k + 1), hiff]
    · have : f - k ≤ r + 1 := by omega
      simp [secureFetchAux, hk, this]

/-- C3 (counterexample): the claim is false on the code.  A call with
retry budget 1 that keeps failing with `HTTP 500` performs its one retry
after waiting `RETRY_DELAY * 3` (the factor is tied to the constant
`MAX_RETRIES`, not to the retries consumed by this call), not the claimed
`RETRY_DELAY * (0 + 1)`. -/
theorem secureFetch_backoff_claim_counterexample :
    (secureFetchAux (fun _ => .failure "HTTP 500") 0 1).2 = [RETRY_DELAY * 3] ∧
      RETRY_DELAY * 3 ≠ RETRY_DELAY * (0 + 1) := by decide

/-- C3 (amended): against a retryable failure stream the wrapper performs
exactly `min (budget, failures until success)` retries for every budget,
and the delay before the `i`-th retry is
`RETRY_DELAY * (MAX_RETRIES - remaining budget + 1)`; for the default
budget `MAX_RETRIES` — the only one the façade uses — this is
`RETRY_DELAY * (i + 1)`, i.e. delays base*1, base*2, base*3, strictly
increasing, before the final outcome is propagated. -/
theorem secureFetch_retry_count_and_default_backoff
    (f r : Nat) (msg body : String)
    (hmsg : containsSub msg "Rate limit" = false) :
    (secureFetchAux (fun j => if j < f then .failure msg else .success body) 0 r).2.length
        = min f r ∧
      (secureFetchAux (fun j => if j < f then .failure msg else .success body) 0 MAX_RETRIES).2
        = (List.range (min f MAX_RETRIES)).map (fun i : Nat => RETRY_DELAY * (i + 1)) ∧
      (secureFetchAux (fun j => if j < f then .failure msg else .success body) 0 MAX_RETRIES).1
        = (if f ≤ MAX_RETRIES then .ok body else .err msg) := by
  refine ⟨?_, ?_, ?_⟩
  · simpa using secureFetch_fail_stream_count f msg body hmsg r 0
  · have h := secureFetch_fail_stream_delays f msg body hmsg MAX_RETRIES 0
    simp only [Nat.sub_zero] at h
    rw [h]
    apply List.map_congr_left
    intro i _
    push_cast [MAX_RETRIES]
    ring
  · simpa using secureFetch_fail_stream_result f msg body hmsg MAX_RETRIES 0

/-- Witness for C3's amended theorem at five failures, budget 2. -/
theorem secureFetch_retry_count_and_default_backoff_witness :
    containsSub "HTTP 500" "Rate limit" = false ∧
      (secureFetchAux (fun j => if j < 5 then .failure "HTTP 500" else .success "B") 0 2).2.length
          = min 5 2 ∧
      (secureFetchAux (fun j => if j < 5 then .failure "HTTP 500" else .success "B") 0 MAX_RETRIES).2
          = (List.range (min 5 MAX_RETRIES)).map (fun i : Nat => RETRY_DELAY * (i + 1)) ∧
      (secureFetchAux (fun j => if j < 5 then .failure "HTTP 500" else .success "B") 0 MAX_RETRIES).1
          = (if 5 ≤ MAX_RETRIES then .ok "B" else .err "HTTP 500") :=
  ⟨by decide, secureFetch_retry_count_and_default_backoff 5 2 "HTTP 500" "B" (by decide)⟩

/-- Filtering by a stronger strict lower bound absorbs a weaker one. -/
theorem filter_lt_absorb (l : List Int) (a b : Int) (hab : a ≤ b) :
    (l.filter (fun t => decide (a < t))).filter (fun t => decide (b < t)) =
      l.filter (fun t => decide (b < t)) := by
  induction l with
  | nil => rfl
  | cons x t ih =>
    by_cases hb : b < x
    · have ha : a < x := lt_of_le_of_lt hab hb
      simp [List.filter_cons, ha, hb, ih]
    · by_cases ha : a < x <;> simp [List.filter_cons, ha, hb, ih]

/-- A pointwise implication between predicates bounds the filtered length. -/
theorem length_filter_le_of_imp {α : Type} (l : List α) (p q : α → Bool)
    (h : ∀ a ∈ l, p a = true → q a = true) :
    (l.filter p).length ≤ (l.filter q).length := by
  induction l with
  | nil => simp
  | cons x t ih =>
    have ht : ∀ a ∈ t, p a = true → q a = true :=
      fun a ha => h a (List.mem_cons_of_mem _ ha)
    by_cases hp : p x = true
    · have hq : q x = true := h x (List.mem_cons_self _ _) hp
      simp only [List.filter_cons, hp, hq, if_true, List.length_cons]
      exact Nat.succ_le_succ (ih ht)
    · by_cases hq : q x = true
      · simp only [List.filter_cons, hp, hq, if_true, Bool.false_eq_true, if_false,
          List.length_cons]
        exact le_trans (ih ht) (Nat.le_succ _)
      · simp only [List.filter_cons, hp, hq, Bool.false_eq_true, if_false]
        exact ih ht

/-- Rejecting step equation of the rate limiter: with the ceiling reached
on the retained window, the check fails and the new timestamp is not
recorded (the log keeps only the filtered timestamps). -/
theorem rateLimitStep_reject (log : List Int) (now : Int)
    (h : MAX_REQUESTS_PER_WINDOW ≤
      (log.filter (fun t => decide (now - RATE_LIMIT_WINDOW < t))).length) :
    rateLimitStep log now =
      (log.filter (fun t => decide (now - RATE_LIMIT_WINDOW < t)), false) := by
  simp [rateLimitStep, h]

/-- Admitting step equation of the rate limiter: below the ceiling, the
current timestamp is appended and the call is allowed. -/
theorem rateLimitStep_admit (log : List Int) (now : Int)
    (h : (log.filter (fun t => decide (now - RATE_LIMIT_WINDOW < t))).length <
      MAX_REQUESTS_PER_WINDOW) :
    rateLimitStep log now =
      (log.filter (fun t => decide (now - RATE_LIMIT_WINDOW < t)) ++ [now], true) := by
  have h' : ¬ MAX_REQUESTS_PER_WINDOW ≤
      (log.filter (fun t => decide (now - RATE_LIMIT_WINDOW < t))).length := by omega
  simp [rateLimitStep, h']

/-- Run invariant of the rate limiter, for a non-decreasing clock trace:
starting from a log that retains exactly the already admitted timestamps
inside the window of the previous check (at time `now`), with at most the
ceiling inside every trailing window so far, the final log is the window
filter of all admitted timestamps at the last check, its length never
exceeds the ceiling, all admitted timestamps are at most the last clock,
and every trailing window still holds at most the ceiling of admitted
timestamps. -/
theorem rl_invariant (ts : List Int) :
    ∀ (log admA : List Int) (now : Int),
      timesMono (now :: ts) = true →
      log = admA.filter (fun t => decide (now - RATE_LIMIT_WINDOW < t)) →
      log.length ≤ MAX_REQUESTS_PER_WINDOW →
      (∀ t ∈ admA, t ≤ now) →
      (∀ T : Int, ((admA.filter
          (fun t => decide (T - RATE_LIMIT_WINDOW < t) && decide (t ≤ T))).length
          ≤ MAX_REQUESTS_PER_WINDOW)) →
      rlLog log ts = (admA ++ rlAdmitted log ts).filter
          (fun t => decide (lastClock (now :: ts) - RATE_LIMIT_WINDOW < t)) ∧
        (rlLog log ts).length ≤ MAX_REQUESTS_PER_WINDOW ∧
        (∀ t ∈ admA ++ rlAdmitted log ts, t ≤ lastClock (now :: ts)) ∧
        (∀ T : Int, (((admA ++ rlAdmitted log ts).filter
            (fun t => decide (T - RATE_LIMIT_WINDOW < t) && decide (t ≤ T))).length
            ≤ MAX_REQUESTS_PER_WINDOW)) := by
  induction ts with
  | nil =>
    intro log admA now hm hlog hlen hle hwin
    refine ⟨by simpa [rlLog, rlAdmitted, lastClock] using hlog, by simpa [rlLog] using hlen,
      ?_, by simpa [rlAdmitted] using hwin⟩
    intro t ht
    simp only [rlAdmitted, List.append_nil] at ht
    simpa [lastClock] using hle t ht
  | cons t ts ih =>
    intro log admA now hm hlog hlen hle hwin
    have hm' : now ≤ t ∧ timesMono (t :: ts) = true := by
      have : timesMono (now :: t :: ts) = (decide (now ≤ t) && timesMono (t :: ts)) := rfl
      rw [this] at hm
      simpa [Bool.and_eq_true, decide_eq_true_eq] using hm
    obtain ⟨hnt, hmono⟩ := hm'
    have hrec : log.filter (fun x => decide (t - RATE_LIMIT_WINDOW < x)) =
        admA.filter (fun x => decide (t - RATE_LIMIT_WINDOW < x)) := by
      rw [hlog]
      exact filter_lt_absorb admA (now - RATE_LIMIT_WINDOW) (t - RATE_LIMIT_WINDOW)
        (by omega)
    have hlast : lastClock (now :: t :: ts) = lastClock (t :: ts) := rfl
    by_cases hceil : MAX_REQUESTS_PER_WINDOW ≤
        (log.filter (fun x => decide (t - RATE_LIMIT_WINDOW < x))).length
    · have hstep := rateLimitStep_reject log t hceil
      have hrl : rlLog log (t :: ts) =
          rlLog (log.filter (fun x => decide (t - RATE_LIMIT_WINDOW < x))) ts := by
        simp [rlLog, hstep]
      have hra : rlAdmitted log (t :: ts) =
          rlAdmitted (log.filter (fun x => decide (t - RATE_LIMIT_WINDOW < x))) ts := by
        simp [rlAdmitted, hstep]
      have hlen' : (log.filter (fun x => decide (t - RATE_LIMIT_WINDOW < x))).length ≤
          MAX_REQUESTS_PER_WINDOW :=
        le_trans (List.length_filter_le _ _) hlen
      have hle' : ∀ x ∈ admA, x ≤ t := fun x hx => le_trans (hle x hx) hnt
      have H := ih (log.filter (fun x => decide (t - RATE_LIMIT_WINDOW < x))) admA t
        hmono hrec hlen' hle' hwin
      rw [hrl, hra, hlast]
      exact H
    · have hlt : (log.filter (fun x => decide (t - RATE_LIMIT_WINDOW < x))).length <
          MAX_REQUESTS_PER_WINDOW := by omega
      have hstep := rateLimitStep_admit log t hlt
      have hrl : rlLog log (t :: ts) =
          rlLog (log.filter (fun x => decide (t - RATE_LIMIT_WINDOW < x)) ++ [t]) ts := by
        simp [rlLog, hstep]
      have hra : rlAdmitted log (t :: ts) =
          t :: rlAdmitted (log.filter (fun x => decide (t - RATE_LIMIT_WINDOW < x)) ++ [t]) ts := by
        simp [rlAdmitted, hstep]
      have hself : decide (t - RATE_LIMIT_WINDOW < t) = true := by
        simp only [decide_eq_true_eq, RATE_LIMIT_WINDOW]; omega
      have hlog' : log.filter (fun x => decide (t - RATE_LIMIT_WINDOW < x)) ++ [t] =
          (admA ++ [t]).filter (fun x => decide (t - RATE_LIMIT_WINDOW < x)) := by
        rw [List.filter_append, hrec]
        simp [List.filter_cons, hself]
        norm_num [RATE_LIMIT_WINDOW]
      have hlen2 : (log.filter (fun x => decide (t - RATE_LIMIT_WINDOW < x)) ++ [t]).length ≤
          MAX_REQUESTS_PER_WINDOW := by
        simp only [List.length_append, List.length_cons, List.length_nil]
        omega
      have hle2 : ∀ x ∈ admA ++ [t], x ≤ t := by
        intro x hx
        rcases List.mem_append.mp hx with h | h
        · exact le_trans (hle x h) hnt
        · simp only [List.mem_singleton] at h
          omega
      have hwin2 : ∀ T : Int, (((admA ++ [t]).filter
          (fun x => decide (T - RATE_LIMIT_WINDOW < x) && decide (x ≤ T))).length
          ≤ MAX_REQUESTS_PER_WINDOW) := by
        intro T
        rw [List.filter_append]
        by_cases hw : (decide (T - RATE_LIMIT_WINDOW < t) && decide (t ≤ T)) = true
        · have hTt : T - RATE_LIMIT_WINDOW < t ∧ t ≤ T := by
            simpa [Bool.and_eq_true, decide_eq_true_eq] using hw
          have hsub : (admA.filter
              (fun x => decide (T - RATE_LIMIT_WINDOW < x) && decide (x ≤ T))).length ≤
              (log.filter (fun x => decide (t - RATE_LIMIT_WINDOW < x))).length := by
            rw [hrec]
            apply length_filter_le_of_imp
            intro x hx hpx
            have hx1 : T - RATE_LIMIT_WINDOW < x ∧ x ≤ T := by
              simpa [Bool.and_eq_true, decide_eq_true_eq] using hpx
            have hx2 : x ≤ now := hle x hx
            simp only [decide_eq_true_eq]
            omega
          simp only [hw, List.filter_cons, if_true, List.filter_nil, List.length_append,
            List.length_cons, List.length_nil]
          omega
        · simp only [List.filter_cons, hw, Bool.false_eq_true, if_false, List.filter_nil,
            List.append_nil]
          exact hwin T
      have H := ih (log.filter (fun x => decide (t - RATE_LIMIT_WINDOW < x)) ++ [t])
        (admA ++ [t]) t hmono hlog' hlen2 hle2 hwin2
      rw [hrl, hra, hlast]
      have hassoc : admA ++ t ::
          rlAdmitted (log.filter (fun x => decide (t - RATE_LIMIT_WINDOW < x)) ++ [t]) ts =
          (admA ++ [t]) ++
            rlAdmitted (log.filter (fun x => decide (t - RATE_LIMIT_WINDOW < x)) ++ [t]) ts := by
        simp
      rw [hassoc]
      exact H

/-- C2: over any non-decreasing sequence of checks starting from the
empty log, every trailing window of `RATE_LIMIT_WINDOW` milliseconds
(ending at any instant `T`) contains at most `MAX_REQUESTS_PER_WINDOW`
admitted timestamps; moreover a single check fails without recording the
new timestamp exactly when the retained count has reached the ceiling,
and otherwise appends the current timestamp and allows the call. -/
theorem rateLimiter_window_admission_bound (ts : List Int) (T : Int)
    (log : List Int) (now : Int) (hm : timesMono ts = true) :
    ((rlAdmitted [] ts).filter
        (fun t => decide (T - RATE_LIMIT_WINDOW < t) && decide (t ≤ T))).length
        ≤ MAX_REQUESTS_PER_WINDOW ∧
      (MAX_REQUESTS_PER_WINDOW ≤
          (log.filter (fun t => decide (now - RATE_LIMIT_WINDOW < t))).length →
        rateLimitStep log now =
          (log.filter (fun t => decide (now - RATE_LIMIT_WINDOW < t)), false)) ∧
      ((log.filter (fun t => decide (now - RATE_LIMIT_WINDOW < t))).length <
          MAX_REQUESTS_PER_WINDOW →
        rateLimitStep log now =
          (log.filter (fun t => decide (now - RATE_LIMIT_WINDOW < t)) ++ [now], true)) := by
  refine ⟨?_, rateLimitStep_reject log now, rateLimitStep_admit log now⟩
  cases ts with
  | nil => simp [rlAdmitted]
  | cons t0 rest =>
    have hm2 : timesMono (t0 :: t0 :: rest) = true := by
      have : timesMono (t0 :: t0 :: rest) = (decide (t0 ≤ t0) && timesMono (t0 :: rest)) := rfl
      rw [this, hm]
      simp
    have H := rl_invariant (t0 :: rest) [] [] t0 hm2 (by simp) (by simp) (by simp) (by simp)
    have := H.2.2.2 T
    simpa using this

/-- Witness for C2 at a concrete trace, window end, log and clock. -/
theorem rateLimiter_window_admission_bound_witness :
    timesMono [0, 1, 50000] = true ∧
      (((rlAdmitted [] [0, 1, 50000]).filter
          (fun t => decide ((50000 : Int) - RATE_LIMIT_WINDOW < t) && decide (t ≤ 50000))).length
          ≤ MAX_REQUESTS_PER_WINDOW ∧
        (MAX_REQUESTS_PER_WINDOW ≤
            (([5] : List Int).filter (fun t => decide ((70000 : Int) - RATE_LIMIT_WINDOW < t))).length →
          rateLimitStep [5] 70000 =
            (([5] : List Int).filter (fun t => decide ((70000 : Int) - RATE_LIMIT_WINDOW < t)), false)) ∧
        ((([5] : List Int).filter (fun t => decide ((70000 : Int) - RATE_LIMIT_WINDOW < t))).length <
            MAX_REQUESTS_PER_WINDOW →
          rateLimitStep [5] 70000 =
            (([5] : List Int).filter (fun t => decide ((70000 : Int) - RATE_LIMIT_WINDOW < t)) ++ [70000], true))) :=
  ⟨by decide, rateLimiter_window_admission_bound [0, 1, 50000] 50000 [5] 70000 (by decide)⟩

/-- C9: after any non-decreasing, nonempty sequence of checks starting
from the empty log, the retained timestamp log holds at most
`MAX_REQUESTS_PER_WINDOW` entries, and every retained timestamp lies in
the trailing window of the most recent check: strictly greater than its
start and at most the last clock value. -/
theorem requestLog_bounded_and_in_window (ts : List Int)
    (hne : ts ≠ []) (hm : timesMono ts = true) :
    (rlLog [] ts).length ≤ MAX_REQUESTS_PER_WINDOW ∧
      (rlLog [] ts).all (fun t =>
        decide (lastClock ts - RATE_LIMIT_WINDOW < t) && decide (t ≤ lastClock ts)) = true := by
  cases ts with
  | nil => exact absurd rfl hne
  | cons t0 rest =>
    have hm2 : timesMono (t0 :: t0 :: rest) = true := by
      have : timesMono (t0 :: t0 :: rest) = (decide (t0 ≤ t0) && timesMono (t0 :: rest)) := rfl
      rw [this, hm]
      simp
    have H := rl_invariant (t0 :: rest) [] [] t0 hm2 (by simp) (by simp) (by simp) (by simp)
    obtain ⟨hlogEq, hlen, hleAll, -⟩ := H
    have hlast : lastClock (t0 :: t0 :: rest) = lastClock (t0 :: rest) := rfl
    refine ⟨hlen, ?_⟩
    rw [List.all_eq_true]
    intro t ht
    rw [hlogEq, hlast] at ht
    obtain ⟨hmemA, hlb⟩ := List.mem_filter.mp ht
    have hub : t ≤ lastClock (t0 :: rest) := by
      have := hleAll t hmemA
      rwa [hlast] at this
    simp only [Bool.and_eq_true, decide_eq_true_eq]
    exact ⟨by simpa using hlb, hub⟩

/-- Witness for C9 at a concrete non-decreasing trace. -/
theorem requestLog_bounded_and_in_window_witness :
    ([0, 1, 50000] : List Int) ≠ [] ∧ timesMono [0, 1, 50000] = true ∧
      ((rlLog [] [0, 1, 50000]).length ≤ MAX_REQUESTS_PER_WINDOW ∧
        (rlLog [] [0, 1, 50000]).all (fun t =>
          decide (lastClock [0, 1, 50000] - RATE_LIMIT_WINDOW < t) &&
            decide (t ≤ lastClock [0, 1, 50000])) = true) :=
  ⟨by decide, by decide,
    requestLog_bounded_and_in_window [0, 1, 50000] (by decide) (by decide)⟩

/-- Value of the digit character of a digit. -/
theorem charDigit_digitChar (n : Nat) (h : n < 10) :
    charDigit (Nat.digitChar n) = some n := by
  interval_cases n <;> decide

/-- Digit accumulation splits over append. -/
theorem digitsValFrom_append (acc : Nat) (a b : List Char) :
    digitsValFrom acc (a ++ b) = (digitsValFrom acc a).bind (fun v => digitsValFrom v b) := by
  induction a generalizing acc with
  | nil => simp [digitsValFrom]
  | cons c cs ih =>
    cases hc : charDigit c with
    | none => simp [digitsValFrom, hc]
    | some d => simp [digitsValFrom, hc, ih]

/-- Digit accumulation over a zero run multiplies by the power of ten. -/
theorem digitsValFrom_replicate_zero (z : Nat) :
    ∀ acc, digitsValFrom acc (List.replicate z '0') = some (acc * 10 ^ z) := by
  induction z with
  | zero => intro acc; simp [digitsValFrom]
  | succ z ih =>
    intro acc
    have hc : charDigit '0' = some 0 := rfl
    simp only [List.replicate_succ, digitsValFrom, hc, ih (acc * 10 + 0)]
    congr 1
    ring

/-- The digit expansion of `n` is nonempty whenever the fuel covers `n`. -/
theorem decDigitsGo_ne_nil (fuel n : Nat) (h : n < fuel) : decDigitsGo fuel n ≠ [] := by
  cases fuel with
  | zero => omega
  | succ fuel => by_cases h10 : n < 10 <;> simp [decDigitsGo, h10]

/-- Every character of a digit expansion is a digit character. -/
theorem decDigitsGo_mem (fuel : Nat) :
    ∀ n c, c ∈ decDigitsGo fuel n → ∃ k, k < 10 ∧ c = Nat.digitChar k := by
  induction fuel with
  | zero => intro n c hc; simp [decDigitsGo] at hc
  | succ fuel ih =>
    intro n c hc
    by_cases h10 : n < 10
    · simp [decDigitsGo, h10] at hc
      exact ⟨n, h10, hc⟩
    · simp only [decDigitsGo, h10, if_false, List.mem_append, List.mem_singleton] at hc
      rcases hc with h | h
      · exact ih (n / 10) c h
      · exact ⟨n % 10, Nat.mod_lt _ (by omega), h⟩

/-- Correctness of the digit expansion under digit accumulation. -/
theorem decDigitsGo_val (fuel : Nat) :
    ∀ n acc, n < fuel →
      digitsValFrom acc (decDigitsGo fuel n) =
        some (acc * 10 ^ (decDigitsGo fuel n).length + n) := by
  induction fuel with
  | zero => intro n acc h; omega
  | succ fuel ih =>
    intro n acc h
    by_cases h10 : n < 10
    · have hc : charDigit (Nat.digitChar n) = some n := charDigit_digitChar n h10
      simp [decDigitsGo, h10, digitsValFrom, hc]
    · have hdiv : n / 10 < fuel := by
        have h1 : n / 10 < n := Nat.div_lt_self (by omega) (by omega)
        omega
      have hc : charDigit (Nat.digitChar (n % 10)) = some (n % 10) :=
        charDigit_digitChar _ (Nat.mod_lt _ (by omega))
      simp only [decDigitsGo, h10, if_false]
      rw [digitsValFrom_append acc _ _, ih (n / 10) acc hdiv]
      have hkey : ∀ v : Nat, digitsValFrom v [Nat.digitChar (n % 10)] =
          some (v * 10 + n % 10) := by
        intro v
        simp [digitsValFrom, hc]
      rw [Option.some_bind, hkey]
      have hlen : (decDigitsGo fuel (n / 10) ++ [Nat.digitChar (n % 10)]).length =
          (decDigitsGo fuel (n / 10)).length + 1 := by
        simp
      rw [hlen]
      refine congrArg some ?_
      have hmod : n / 10 * 10 + n % 10 = n := Nat.div_add_mod' n 10
      calc (acc * 10 ^ (decDigitsGo fuel (n / 10)).length + n / 10) * 10 + n % 10
          = acc * (10 ^ (decDigitsGo fuel (n / 10)).length * 10) +
            (n / 10 * 10 + n % 10) := by ring
        _ = acc * 10 ^ ((decDigitsGo fuel (n / 10)).length + 1) + n := by
            rw [hmod, pow_succ]

/-- Length bound of the digit expansion from a power-of-ten bound. -/
theorem decDigitsGo_length_le (fuel : Nat) :
    ∀ n k, n < fuel → n < 10 ^ k → 1 ≤ k → (decDigitsGo fuel n).length ≤ k := by
  induction fuel with
  | zero => intro n k h; omega
  | succ fuel ih =>
    intro n k h hnk hk
    by_cases h10 : n < 10
    · simp only [decDigitsGo, h10, if_true, List.length_cons, List.length_nil]
      omega
    · have hk2 : 2 ≤ k := by
        by_contra hc
        have hk1 : k = 1 := by omega
        rw [hk1, pow_one] at hnk
        omega
      have hdivfuel : n / 10 < fuel := by
        have h1 : n / 10 < n := Nat.div_lt_self (by omega) (by omega)
        omega
      have hdivpow : n / 10 < 10 ^ (k - 1) := by
        have hp : 10 ^ (k - 1) * 10 = 10 ^ k := by
          rw [← pow_succ]
          congr 1
          omega
        refine (Nat.div_lt_iff_lt_mul (by omega)).mpr ?_
        rw [hp]
        exact hnk
      have := ih (n / 10) (k - 1) hdivfuel hdivpow (by omega)
      simp only [decDigitsGo, h10, if_false, List.length_append, List.length_cons,
        List.length_nil]
      omega

/-- A separator-free list splits into itself alone. -/
theorem splitOnChar_no_sep (sep : Char) :
    ∀ l : List Char, (∀ c ∈ l, c ≠ sep) → splitOnChar sep l = [l] := by
  intro l
  induction l with
  | nil => intro _; rfl
  | cons c cs ih =>
    intro h
    have hc : ¬ c = sep := h c (List.mem_cons_self _ _)
    have hcs := ih (fun x hx => h x (List.mem_cons_of_mem _ hx))
    simp [splitOnChar, hc, hcs]

/-- A list with exactly one separator splits into its two parts. -/
theorem splitOnChar_two (sep : Char) (w f : List Char)
    (hw : ∀ c ∈ w, c ≠ sep) (hf : ∀ c ∈ f, c ≠ sep) :
    splitOnChar sep (w ++ sep :: f) = [w, f] := by
  induction w with
  | nil =>
    rw [List.nil_append]
    show splitOnChar sep (sep :: f) = [[], f]
    simp [splitOnChar, splitOnChar_no_sep sep f hf]
  | cons c cs ih =>
    have hc : ¬ c = sep := hw c (List.mem_cons_self _ _)
    have hcs := ih (fun x hx => hw x (List.mem_cons_of_mem _ hx))
    simp [splitOnChar, hc, hcs]

/-- Trimming trailing zeros decomposes the list into the trimmed prefix
and a zero run, preserving total length. -/
theorem dropTrailingZeros_spec (l : List Char) :
    ∃ k, l = dropTrailingZeros l ++ List.replicate k '0' ∧
      (dropTrailingZeros l).length + k = l.length := by
  refine ⟨(l.reverse.takeWhile (fun c => decide (c = '0'))).length, ?_, ?_⟩
  · have htake : l.reverse.takeWhile (fun c => decide (c = '0')) =
        List.replicate (l.reverse.takeWhile (fun c => decide (c = '0'))).length '0' := by
      refine List.eq_replicate_of_mem ?_
      intro b hb
      have := List.mem_takeWhile_imp hb
      simpa using this
    have hsplit : l = (List.dropWhile (fun c => decide (c = '0')) l.reverse).reverse ++
        (List.takeWhile (fun c => decide (c = '0')) l.reverse).reverse := by
      conv_lhs => rw [← l.reverse_reverse,
        ← List.takeWhile_append_dropWhile (p := fun c => decide (c = '0')) (l := l.reverse)]
      rw [List.reverse_append]
    have htakerev : (List.takeWhile (fun c => decide (c = '0')) l.reverse).reverse =
        List.replicate (List.takeWhile (fun c => decide (c = '0')) l.reverse).length '0' := by
      conv_lhs => rw [htake]
      rw [List.reverse_replicate]
    calc l = (List.dropWhile (fun c => decide (c = '0')) l.reverse).reverse ++
          (List.takeWhile (fun c => decide (c = '0')) l.reverse).reverse := hsplit
      _ = dropTrailingZeros l ++
          List.replicate (List.takeWhile (fun c => decide (c = '0')) l.reverse).length '0' := by
          rw [htakerev]
          simp only [dropTrailingZeros]
  · have := congrArg List.length
      (List.takeWhile_append_dropWhile (p := fun c => decide (c = '0')) (l := l.reverse))
    simp only [List.length_append, List.length_reverse] at this
    simp only [dropTrailingZeros, List.length_reverse]
    omega

/-- Value of a one-part decimal string. -/
theorem decVal_single (w : List Char) (hw : ∀ c ∈ w, c ≠ '.') (hne : w ≠ [])
    (n : Nat) (hval : digitsVal w = some n) :
    decVal (String.mk w) = some ((n : ℚ)) := by
  unfold decVal
  have htl : (String.mk w).toList = w := rfl
  rw [htl, splitOnChar_no_sep '.' w hw]
  have hemp : w.isEmpty = false := by
    cases w with
    | nil => exact absurd rfl hne
    | cons _ _ => rfl
  simp [hemp, hval]

/-- Value of a two-part decimal string. -/
theorem decVal_pair (w f : List Char) (hw : ∀ c ∈ w, c ≠ '.') (hf : ∀ c ∈ f, c ≠ '.')
    (hwne : w ≠ []) (hfne : f ≠ [])
    (wv fv : Nat) (hwv : digitsVal w = some wv) (hfv : digitsVal f = some fv) :
    decVal (String.mk (w ++ '.' :: f)) = some ((wv : ℚ) + fv / 10 ^ f.length) := by
  unfold decVal
  have htl : (String.mk (w ++ '.' :: f)).toList = w ++ '.' :: f := rfl
  rw [htl, splitOnChar_two '.' w f hw hf]
  have hw0 : w.isEmpty = false := by
    cases w with
    | nil => exact absurd rfl hwne
    | cons _ _ => rfl
  have hf0 : f.isEmpty = false := by
    cases f with
    | nil => exact absurd rfl hfne
    | cons _ _ => rfl
  simp [hw0, hf0, hwv, hfv]

/-- Exactness of `formatUnits`: the rendered decimal string denotes
exactly `m / 10 ^ decimals`, with no rounding. -/
theorem decVal_formatUnits (m d : Nat) :
    decVal (formatUnits m d) = some ((m : ℚ) / 10 ^ d) := by
  by_cases hd : d = 0
  · subst hd
    have h1 : formatUnits m 0 = String.mk (decDigits m) := by simp [formatUnits]
    have hdig : ∀ c ∈ decDigits m, c ≠ '.' := by
      intro c hc
      obtain ⟨k, hk, rfl⟩ := decDigitsGo_mem (m + 1) m c hc
      interval_cases k <;> decide
    have hne : decDigits m ≠ [] := decDigitsGo_ne_nil (m + 1) m (by omega)
    have hval : digitsVal (decDigits m) = some m := by
      have := decDigitsGo_val (m + 1) m 0 (by omega)
      simpa [digitsVal, decDigits] using this
    rw [h1, decVal_single (decDigits m) hdig hne m hval]
    norm_num
  · have hd1 : 1 ≤ d := by omega
    have hpow : 0 < 10 ^ d := pow_pos (by omega) d
    have hfr : m % 10 ^ d < 10 ^ d := Nat.mod_lt _ hpow
    have hlenRaw : (decDigits (m % 10 ^ d)).length ≤ d :=
      decDigitsGo_length_le (m % 10 ^ d + 1) (m % 10 ^ d) d (by omega) hfr hd1
    have h1 : formatUnits m d = String.mk (decDigits (m / 10 ^ d) ++ '.' ::
        (if (dropTrailingZeros (List.replicate (d - (decDigits (m % 10 ^ d)).length) '0' ++
              decDigits (m % 10 ^ d))).isEmpty then ['0']
         else dropTrailingZeros (List.replicate (d - (decDigits (m % 10 ^ d)).length) '0' ++
              decDigits (m % 10 ^ d)))) := by
      simp only [formatUnits, hd, if_false]
    rw [h1]
    have hwdig : ∀ c ∈ decDigits (m / 10 ^ d), c ≠ '.' := by
      intro c hc
      obtain ⟨k, hk, rfl⟩ := decDigitsGo_mem (m / 10 ^ d + 1) (m / 10 ^ d) c hc
      interval_cases k <;> decide
    have hwne : decDigits (m / 10 ^ d) ≠ [] :=
      decDigitsGo_ne_nil (m / 10 ^ d + 1) (m / 10 ^ d) (by omega)
    have hwval : digitsVal (decDigits (m / 10 ^ d)) = some (m / 10 ^ d) := by
      have := decDigitsGo_val (m / 10 ^ d + 1) (m / 10 ^ d) 0 (by omega)
      simpa [digitsVal, decDigits] using this
    set padded := List.replicate (d - (decDigits (m % 10 ^ d)).length) '0' ++
      decDigits (m % 10 ^ d) with hpaddedDef
    have hpadlen : padded.length = d := by
      rw [hpaddedDef]
      simp only [List.length_append, List.length_replicate]
      omega
    have hpadval : digitsVal padded = some (m % 10 ^ d) := by
      rw [hpaddedDef]
      unfold digitsVal
      rw [digitsValFrom_append, digitsValFrom_replicate_zero]
      simp only [Nat.zero_mul, Option.some_bind]
      have := decDigitsGo_val (m % 10 ^ d + 1) (m % 10 ^ d) 0 (by omega)
      simpa [digitsVal, decDigits] using this
    obtain ⟨k, hdecomp, hklen⟩ := dropTrailingZeros_spec padded
    have hmem0 : ∀ c ∈ dropTrailingZeros padded, c ≠ '.' := by
      intro c hc
      have hcp : c ∈ padded := by
        rw [hdecomp]
        exact List.mem_append_left _ hc
      rw [hpaddedDef] at hcp
      rcases List.mem_append.mp hcp with h | h
      · have hc0 := List.eq_of_mem_replicate h
        subst hc0
        decide
      · obtain ⟨j, hj, rfl⟩ := decDigitsGo_mem (m % 10 ^ d + 1) (m % 10 ^ d) c h
        interval_cases j <;> decide
    have htrim : ∃ v, digitsVal (dropTrailingZeros padded) = some v ∧
        v * 10 ^ k = m % 10 ^ d := by
      cases hv : digitsVal (dropTrailingZeros padded) with
      | none =>
        exfalso
        have h2 := hpadval
        rw [hdecomp] at h2
        unfold digitsVal at h2 hv
        rw [digitsValFrom_append, hv] at h2
        simp at h2
      | some v =>
        refine ⟨v, rfl, ?_⟩
        have h2 := hpadval
        rw [hdecomp] at h2
        unfold digitsVal at h2 hv
        rw [digitsValFrom_append, hv] at h2
        simp only [Option.some_bind] at h2
        rw [digitsValFrom_replicate_zero k v] at h2
        simpa using h2
    obtain ⟨v, hv, hvfr⟩ := htrim
    by_cases hemp : (dropTrailingZeros padded).isEmpty
    · have hdtznil : dropTrailingZeros padded = [] := by
        cases hcase : dropTrailingZeros padded with
        | nil => rfl
        | cons a l => rw [hcase] at hemp; simp at hemp
      rw [hdtznil] at hv
      have hv0 : v = 0 := by
        have := hv
        simp [digitsVal, digitsValFrom] at this
        omega
      have hfr0 : m % 10 ^ d = 0 := by
        rw [← hvfr, hv0]
        ring
      rw [if_pos hemp]
      rw [decVal_pair (decDigits (m / 10 ^ d)) ['0'] hwdig
        (by intro c hc; simp at hc; subst hc; decide) hwne (by simp)
        (m / 10 ^ d) 0 hwval rfl]
      refine congrArg some ?_
      have hdvd : 10 ^ d ∣ m := Nat.dvd_of_mod_eq_zero hfr0
      have hmul : (m / 10 ^ d) * 10 ^ d = m := Nat.div_mul_cancel hdvd
      rw [eq_div_iff (by positivity)]
      push_cast
      rw [add_mul, zero_div, zero_mul, add_zero]
      exact_mod_cast congrArg (Nat.cast (R := ℚ)) hmul
    · have hdtzne : dropTrailingZeros padded ≠ [] := by
        intro hnil
        rw [hnil] at hemp
        exact hemp rfl
      rw [if_neg hemp]
      rw [decVal_pair (decDigits (m / 10 ^ d)) (dropTrailingZeros padded) hwdig hmem0
        hwne hdtzne (m / 10 ^ d) v hwval hv]
      refine congrArg some ?_
      rw [hpadlen] at hklen
      have hlenL : (dropTrailingZeros padded).length = d - k := by omega
      rw [hlenL]
      have hpowsplit : (10 : ℚ) ^ d = 10 ^ (d - k) * 10 ^ k := by
        rw [← pow_add]
        congr 1
        omega
      have hfrQ : ((m % 10 ^ d : Nat) : ℚ) = (v : ℚ) * 10 ^ k := by
        rw [← hvfr]
        push_cast
        ring
      have hm_split : (m : ℚ) = (10 : ℚ) ^ d * ((m / 10 ^ d : Nat) : ℚ) +
          ((m % 10 ^ d : Nat) : ℚ) := by
        have h3 := Nat.div_add_mod m (10 ^ d)
        exact_mod_cast (congrArg (Nat.cast (R := ℚ)) h3).symm
      rw [hm_split, hfrQ, hpowsplit]
      have hnz1 : ((10 : ℚ) ^ (d - k)) ≠ 0 := by positivity
      have hnz2 : ((10 : ℚ) ^ k) ≠ 0 := by positivity
      field_simp
      ring

/-- Exactness of `parseUnits`: a successful parse produces exactly the
decimal value of the input scaled by `10 ^ decimals` — the integer
mantissa carries no rounding. -/
theorem parseUnits_exact (s : String) (d m : Nat) (h : parseUnits s d = some m) :
    decVal s = some ((m : ℚ) / 10 ^ d) := by
  unfold parseUnits at h
  unfold decVal
  rw [show splitOnChar '.' s.toList = splitOnChar '.' s.data from rfl] at h
  rw [show splitOnChar '.' s.toList = splitOnChar '.' s.data from rfl]
  rcases hsp : splitOnChar '.' s.data with _ | ⟨w, _ | ⟨f, _ | ⟨x, xs⟩⟩⟩
  · rw [hsp] at h
    simp at h
  · rw [hsp] at h
    by_cases hemp : w.isEmpty
    · simp [hemp] at h
    · cases hw : digitsVal w with
      | none => simp [hemp, hw] at h
      | some wv =>
        simp only [hemp, Bool.false_eq_true, if_false, hw, Option.map_some] at h ⊢
        have hm : wv * 10 ^ d = m := by
          exact Option.some.inj h
        refine congrArg some ?_
        rw [← hm]
        push_cast
        rw [eq_div_iff (by positivity)]
  · rw [hsp] at h
    by_cases hwemp : w.isEmpty
    · simp [hwemp] at h
    · by_cases hfemp : f.isEmpty
      · simp [hwemp, hfemp] at h
      · by_cases hdlt : d < f.length
        · simp [hwemp, hfemp, hdlt] at h
        · cases hw : digitsVal w with
          | none => simp [hwemp, hfemp, hdlt, hw] at h
          | some wv =>
            cases hf : digitsVal f with
            | none => simp [hwemp, hfemp, hdlt, hw, hf] at h
            | some fv =>
              have he : f.length ≤ d := by omega
              have hdlt2 : decide (d < f.length) = false := by
                simp [hdlt]
              simp only [hwemp, hfemp, hdlt2, Bool.or_false,
                Bool.false_eq_true, if_false, hw, hf, Option.bind_some,
                Option.map_some] at h ⊢
              have hm : wv * 10 ^ d + fv * 10 ^ (d - f.length) = m :=
                Option.some.inj h
              refine congrArg some ?_
              rw [← hm]
              have hsplit : (10 : ℚ) ^ d = 10 ^ (d - f.length) * 10 ^ f.length := by
                rw [← pow_add]
                congr 1
                omega
              push_cast
              rw [hsplit]
              field_simp
              ring
  · rw [hsp] at h
    simp at h

/-- C4: decimal-string to fixed-point conversion composed with the
inverse conversion is a value round-trip identity for every decimal with
no more fractional digits than the token's decimal count; in particular
`"123.456"` with 18 decimals converts to the integer
`123456000000000000000` and back to the string `"123.456"`, with no
rounding of the integer mantissa.  (`ethers.parseUnits` /
`ethers.formatUnits` are modelled from the spec; see their
definitions.) -/
theorem token_conversion_round_trip (s : String) (d m : Nat)
    (h : parseUnits s d = some m) :
    parseUnits "123.456" 18 = some 123456000000000000000 ∧
      formatUnits 123456000000000000000 18 = "123.456" ∧
      decVal (formatUnits m d) = decVal s := by
  refine ⟨by decide, by decide, ?_⟩
  rw [decVal_formatUnits, parseUnits_exact s d m h]

/-- Witness for C4 at `"123.456"` with 18 decimals. -/
theorem token_conversion_round_trip_witness :
    parseUnits "123.456" 18 = some 123456000000000000000 ∧
      (parseUnits "123.456" 18 = some 123456000000000000000 ∧
        formatUnits 123456000000000000000 18 = "123.456" ∧
        decVal (formatUnits 123456000000000000000 18) = decVal "123.456") :=
  ⟨by decide,
    token_conversion_round_trip "123.456" 18 123456000000000000000 (by decide)⟩
